import Mathlib

/-!
Verification of the webrender display backend (src/rust_src/src/webrender_backend/)
against its natural-language specification.

The Rust sources are shallowly embedded: machine integers become naturals with
explicit `% 2 ^ w` where wrap-around matters, IEEE single-precision (f32)
arithmetic is modelled exactly (every f32 value is a dyadic rational; the
model stores its canonical significand and exponent and rounds exact rational
results to the nearest representable value, ties to even), fallible
operations (panicking `unwrap`, out-of-range slicing) return `Option` with
`none` standing for a panic, and stateful code becomes explicit state
passing.
-/

namespace WrBackend

/-! ## Exact model of IEEE binary32 (f32) arithmetic

All f32 values occurring in the embedded code are normal and far from
overflow and underflow, so the model rounds an exact rational result to the
nearest value of the form m * 2 ^ (e - 23) with 2 ^ 23 ≤ |m| < 2 ^ 24
(round to nearest, ties to even) and does not model infinities, NaN or
subnormals. -/

/-- An f32 value: the dyadic rational m * 2 ^ (e - 23). Values produced by
the rounding functions are canonical: m = 0 ∧ e = 0, or 2 ^ 23 ≤ |m| < 2 ^ 24,
so structural equality is value equality. -/
structure F32 where
  m : ℤ
  e : ℤ
  deriving DecidableEq

/-- Round the fraction num / den (den > 0) to the nearest natural number,
ties to even. -/
def divRoundHalfEven (num den : ℕ) : ℕ :=
  let n := num / den
  let r := num % den
  if 2 * r < den then n
  else if den < 2 * r then n + 1
  else if n % 2 = 0 then n else n + 1

/-- Floor of the base-2 logarithm of a natural number, fuel-driven so that it
reduces in the kernel. The fuel must be at least the argument. -/
def log2fuel : ℕ → ℕ → ℕ
  | 0, _ => 0
  | fuel + 1, n => if n < 2 then 0 else log2fuel fuel (n / 2) + 1

/-- Smallest k at least the given start value with b ≤ a * 2 ^ k,
fuel-driven so that it reduces in the kernel. -/
def negExpSearch : ℕ → ℕ → ℕ → ℕ → ℕ
  | 0, _, _, k => k
  | fuel + 1, a, b, k => if b ≤ a * 2 ^ k then k else negExpSearch fuel a b (k + 1)

/-- Floor of the base-2 logarithm of the positive fraction a / b. -/
def fracLog2 (a b : ℕ) : ℤ :=
  if b ≤ a then (log2fuel a (a / b) : ℤ)
  else -((negExpSearch b a b 0 : ℕ) : ℤ)

/-- Round the nonnegative fraction a / b (b > 0) to the f32 grid: scale into
the 24-bit significand window [2 ^ 23, 2 ^ 24), round to nearest (ties to
even), and renormalize when rounding lands on 2 ^ 24 itself. -/
def roundPosF32 (a b : ℕ) : F32 :=
  if a = 0 then ⟨0, 0⟩
  else
    let e : ℤ := fracLog2 a b
    let num : ℕ := if 0 ≤ 23 - e then a * 2 ^ (23 - e).toNat else a
    let den : ℕ := if 0 ≤ 23 - e then b else b * 2 ^ (e - 23).toNat
    let m : ℕ := divRoundHalfEven num den
    if m = 2 ^ 24 then ⟨2 ^ 23, e + 1⟩ else ⟨(m : ℤ), e⟩

/-- Round the exact rational p / q (q ≠ 0) to the nearest f32 value. -/
def roundF32Frac (p q : ℤ) : F32 :=
  let r := roundPosF32 p.natAbs q.natAbs
  if (p < 0) = (q < 0) then r else ⟨-r.m, r.e⟩

/-- The f32 value of a natural number (exact below 2 ^ 24; all uses in this
code are). -/
def F32.ofNat (x : ℕ) : F32 := roundF32Frac (x : ℤ) 1

/-- The f32 value of an integer, as produced by the Rust cast `as f32` on a
32-bit integer (exact when the magnitude is below 2 ^ 24, correctly rounded
otherwise). -/
def F32.ofInt (x : ℤ) : F32 := roundF32Frac x 1

/-- IEEE f32 division: the exact quotient, rounded. -/
def F32.div (x y : F32) : F32 :=
  let k : ℤ := x.e - y.e
  roundF32Frac (x.m * 2 ^ (max k 0).toNat) (y.m * 2 ^ (max (-k) 0).toNat)

/-- IEEE f32 multiplication: the exact product, rounded. -/
def F32.mul (x y : F32) : F32 :=
  let k : ℤ := x.e + y.e - 46
  if 0 ≤ k then roundF32Frac (x.m * y.m * 2 ^ k.toNat) 1
  else roundF32Frac (x.m * y.m) (2 ^ (-k).toNat)

/-- Semantics of the Rust cast `as u64` applied to an f32 value: saturating
conversion, truncating toward zero. -/
def F32.toU64 (x : F32) : ℕ :=
  if x.m ≤ 0 then 0
  else
    let v : ℕ :=
      if 0 ≤ x.e - 23 then x.m.toNat * 2 ^ (x.e - 23).toNat
      else x.m.toNat / 2 ^ (23 - x.e).toNat
    min v (2 ^ 64 - 1)

/-! ## color.rs -/

/-- webrender ColorF: four f32 channels. -/
structure ColorF where
  r : F32
  g : F32
  b : F32
  a : F32
  deriving DecidableEq

/-- The i-th 16-bit lane of a packed 64-bit pixel. Lane 0 is the low word:
the `transmute` of `u64` to `[u16; 4]` in the source is a little-endian
reinterpretation, so `pixel_array[i]` is lane i. -/
def lane (pixel i : ℕ) : ℕ := pixel / 2 ^ (16 * i) % 2 ^ 16

/-- color.rs pixel_to_color: lanes 0, 1, 2 are red, green, blue; each
`u16 as f32` is exact and the division by 255.0 is one f32 operation;
alpha is fixed at 1.0. -/
def pixel_to_color (pixel : ℕ) : ColorF :=
  ColorF.mk
    (F32.div (F32.ofNat (lane pixel 0)) (F32.ofNat 255))
    (F32.div (F32.ofNat (lane pixel 1)) (F32.ofNat 255))
    (F32.div (F32.ofNat (lane pixel 2)) (F32.ofNat 255))
    (F32.ofNat 1)

/-- color.rs color_to_pixel: each channel is multiplied by 255.0 in f32,
cast to u64, and the three results are packed as
`(blue << 32) | (green << 16) | red` in u64 arithmetic (the left shift
discards bits shifted past bit 63). -/
def color_to_pixel (color : ColorF) : ℕ :=
  let red := F32.toU64 (F32.mul color.r (F32.ofNat 255))
  let green := F32.toU64 (F32.mul color.g (F32.ofNat 255))
  let blue := F32.toU64 (F32.mul color.b (F32.ofNat 255))
  ((blue <<< 32) % 2 ^ 64) ||| (((green <<< 16) % 2 ^ 64) ||| red)

set_option maxRecDepth 100000 in
/-- One lane value in [0, 255] survives the f32 round trip
x ↦ x / 255 ↦ (x / 255) * 255 ↦ truncation to u64. -/
theorem lane_roundtrip :
    ∀ x : Fin 256,
      F32.toU64 (F32.mul (F32.div (F32.ofNat x.val) (F32.ofNat 255)) (F32.ofNat 255)) = x.val := by
  decide

/-- Claim C1: for every 64-bit packed pixel whose red, green and blue 16-bit
lanes each hold a value in [0, 255], converting it with pixel_to_color and
packing the result back with color_to_pixel yields a pixel whose red, green
and blue lanes equal the original lane values. -/
theorem pixel_color_roundtrip (p : ℕ) (_hp : p < 2 ^ 64)
    (h0 : lane p 0 ≤ 255) (h1 : lane p 1 ≤ 255) (h2 : lane p 2 ≤ 255) :
    lane (color_to_pixel (pixel_to_color p)) 0 = lane p 0 ∧
    lane (color_to_pixel (pixel_to_color p)) 1 = lane p 1 ∧
    lane (color_to_pixel (pixel_to_color p)) 2 = lane p 2 := by
  have hr : F32.toU64 (F32.mul (F32.div (F32.ofNat (lane p 0)) (F32.ofNat 255)) (F32.ofNat 255))
      = lane p 0 := lane_roundtrip ⟨lane p 0, by omega⟩
  have hg : F32.toU64 (F32.mul (F32.div (F32.ofNat (lane p 1)) (F32.ofNat 255)) (F32.ofNat 255))
      = lane p 1 := lane_roundtrip ⟨lane p 1, by omega⟩
  have hb : F32.toU64 (F32.mul (F32.div (F32.ofNat (lane p 2)) (F32.ofNat 255)) (F32.ofNat 255))
      = lane p 2 := lane_roundtrip ⟨lane p 2, by omega⟩
  simp only [pixel_to_color, color_to_pixel]
  rw [hr, hg, hb]
  rw [Nat.shiftLeft_eq, Nat.shiftLeft_eq]
  rw [Nat.mod_eq_of_lt (a := lane p 2 * 2 ^ 32) (by nlinarith [h2]),
    Nat.mod_eq_of_lt (a := lane p 1 * 2 ^ 16) (by nlinarith [h1])]
  rw [Nat.mul_comm (lane p 2) (2 ^ 32), Nat.mul_comm (lane p 1) (2 ^ 16)]
  rw [(Nat.mul_add_lt_is_or (b := lane p 0) (by omega) (lane p 1)).symm]
  rw [(Nat.mul_add_lt_is_or (b := 2 ^ 16 * lane p 1 + lane p 0) (by nlinarith [h0, h1])
    (lane p 2)).symm]
  refine ⟨?_, ?_, ?_⟩ <;> · simp only [lane] at h0 h1 h2 ⊢; omega

/-- Witness for claim C1: concrete instance at the pixel with lanes
red 255, green 128, blue 64. -/
theorem pixel_color_roundtrip_witness :
    lane (color_to_pixel (pixel_to_color 274886295807)) 0 = lane 274886295807 0 ∧
    lane (color_to_pixel (pixel_to_color 274886295807)) 1 = lane 274886295807 1 ∧
    lane (color_to_pixel (pixel_to_color 274886295807)) 2 = lane 274886295807 2 :=
  pixel_color_roundtrip 274886295807 (by decide) (by decide) (by decide) (by decide)

/-! ## keyboard.rs -/

/-- glutin ModifiersState: the four platform modifier bits read by this code. -/
structure ModifiersState where
  alt : Bool
  shift : Bool
  ctrl : Bool
  logo : Bool
  deriving DecidableEq

def ModifiersState.empty : ModifiersState := ⟨false, false, false, false⟩

/-- Modelled from the spec: the host modifier bitmask constants
(meta_modifier, shift_modifier, ctrl_modifier, super_modifier come from the
host C headers, which are not under src/). The claims depend only on the
translation structure, not on these numeric values. -/
def meta_modifier : ℕ := 0x8000000

def shift_modifier : ℕ := 0x2000000

def ctrl_modifier : ℕ := 0x4000000

def super_modifier : ℕ := 0x0800000

inductive EventKind where
  | ASCII_KEYSTROKE_EVENT
  | NON_ASCII_KEYSTROKE_EVENT
  deriving DecidableEq

inductive ScrollBarPart where
  | scroll_bar_nowhere
  deriving DecidableEq

/-- Host Lisp object handles are opaque to this code; modelled as naturals. -/
abbrev LispObject := ℕ

/-- The nil object (opaque handle). -/
def Qnil : LispObject := 0

/-- The host input_event struct, with the fields this code fills in. -/
structure InputEvent where
  kind : EventKind
  part : ScrollBarPart
  code : ℕ
  modifiers : ℕ
  x : ℤ
  y : ℤ
  timestamp : ℕ
  frame_or_window : LispObject
  arg : LispObject
  deriving DecidableEq

/-- The windowing library key-code enum: the three variants this backend
maps to key names, plus a catch-all for every other variant (the embedded
code treats all of those identically). -/
inductive VirtualKeyCode where
  | Escape
  | Back
  | Return
  | Other (discriminant : ℕ)
  deriving DecidableEq

/-- Modelled from the spec: the numeric discriminant of the windowing
library enum used by the cast `key_code as u32` (the enum lives in the
external windowing library, not under src/). The claims depend only on
which variant is mapped, never on these numbers. -/
def VirtualKeyCode.code : VirtualKeyCode → ℕ
  | .Escape => 36
  | .Back => 64
  | .Return => 65
  | .Other n => n

/-- keyboard.rs winit_keycode_emacs_key_name: a key-name C string for the
three mapped variants, a null pointer (modelled as none) for all others. -/
def winit_keycode_emacs_key_name : VirtualKeyCode → Option String
  | .Escape => some "escape"
  | .Back => some "backspace"
  | .Return => some "return"
  | .Other _ => none

structure KeyboardProcessor where
  modifiers : ModifiersState
  suppress_chars : Bool
  deriving DecidableEq

namespace KeyboardProcessor

/-- keyboard.rs KeyboardProcessor::new. -/
def new : KeyboardProcessor := ⟨ModifiersState.empty, false⟩

/-- keyboard.rs remove_control: `c as u8` truncates the character code to
its low byte; a byte below 32 gets 64 added and is then lower-cased when
the sum lies in [65, 90]; `c as char` turns the byte back into the
character with that code. -/
def remove_control (c : ℕ) : ℕ :=
  let c8 := c % 256
  if c8 < 32 then
    let new_c := c8 + 64
    if 65 ≤ new_c ∧ new_c ≤ 90 then new_c + 32 else new_c
  else c8

/-- keyboard.rs to_emacs_modifiers: starts from 0 and ors in one host
constant per set platform bit. -/
def to_emacs_modifiers (modifiers : ModifiersState) : ℕ :=
  let m0 : ℕ := 0
  let m1 := if modifiers.alt then m0 ||| meta_modifier else m0
  let m2 := if modifiers.shift then m1 ||| shift_modifier else m1
  let m3 := if modifiers.ctrl then m2 ||| ctrl_modifier else m2
  if modifiers.logo then m3 ||| super_modifier else m3

/-- keyboard.rs receive_char: takes the state immutably; when suppression is
off it produces the ASCII-keystroke event with the control-remapped code. -/
def receive_char (self : KeyboardProcessor) (c : ℕ) (top_frame : LispObject) :
    Option InputEvent :=
  if self.suppress_chars then none
  else
    some
      { kind := EventKind.ASCII_KEYSTROKE_EVENT
        part := ScrollBarPart.scroll_bar_nowhere
        code := remove_control c
        modifiers := to_emacs_modifiers self.modifiers
        x := 0
        y := 0
        timestamp := 0
        frame_or_window := top_frame
        arg := Qnil }

/-- keyboard.rs key_pressed: returns early (state untouched) when the key
code has no mapped name; otherwise sets suppress_chars and produces the
non-ASCII-keystroke event. -/
def key_pressed (self : KeyboardProcessor) (key_code : VirtualKeyCode)
    (top_frame : LispObject) : Option InputEvent × KeyboardProcessor :=
  if winit_keycode_emacs_key_name key_code = none then (none, self)
  else
    let self2 := { self with suppress_chars := true }
    (some
      { kind := EventKind.NON_ASCII_KEYSTROKE_EVENT
        part := ScrollBarPart.scroll_bar_nowhere
        code := key_code.code
        modifiers := to_emacs_modifiers self.modifiers
        x := 0
        y := 0
        timestamp := 0
        frame_or_window := top_frame
        arg := Qnil }, self2)

/-- keyboard.rs key_released. -/
def key_released (self : KeyboardProcessor) : KeyboardProcessor :=
  { self with suppress_chars := false }

/-- keyboard.rs change_modifiers. -/
def change_modifiers (self : KeyboardProcessor) (modifiers : ModifiersState) :
    KeyboardProcessor :=
  { self with modifiers := modifiers }

end KeyboardProcessor

/-- One call into the keyboard shim, for stating temporal properties. -/
inductive KeyOp where
  | press (kc : VirtualKeyCode) (frame : LispObject)
  | release
  | char (c : ℕ) (frame : LispObject)
  | mods (m : ModifiersState)
  deriving DecidableEq

/-- State transition of one keyboard-shim call (receive_char borrows the
state immutably, so it does not change it). -/
def stepKey (self : KeyboardProcessor) : KeyOp → KeyboardProcessor
  | .press kc fr => (self.key_pressed kc fr).2
  | .release => self.key_released
  | .char _ _ => self
  | .mods m => self.change_modifiers m

/-- Once suppress_chars is set, every call other than key_released keeps it
set. -/
theorem suppress_preserved (ops : List KeyOp) :
    ∀ self : KeyboardProcessor, KeyOp.release ∉ ops → self.suppress_chars = true →
      (ops.foldl stepKey self).suppress_chars = true := by
  induction ops with
  | nil => intro self _ h; exact h
  | cons op rest ih =>
    intro self hmem h
    have hop : op ≠ KeyOp.release := fun he => hmem (he ▸ List.mem_cons_self op rest)
    have hrest : KeyOp.release ∉ rest := fun he => hmem (List.mem_cons_of_mem op he)
    refine ih (stepKey self op) hrest ?_
    cases op with
    | press kc fr =>
      simp only [stepKey, KeyboardProcessor.key_pressed]
      split
      · exact h
      · rfl
    | release => exact absurd rfl hop
    | char c fr => exact h
    | mods m => exact h

/-- Counterexample to claim C7: remove_control does not leave every
character with code 32 or above unchanged — the character with code 256
(which is at least 32) is mapped to code 64, because the Rust cast
`c as u8` truncates the code to its low byte first. -/
theorem remove_control_claim_false :
    32 ≤ 256 ∧ KeyboardProcessor.remove_control 256 = 64 ∧ (64 : ℕ) ≠ 256 := by
  decide

/-- Claim C7 (amended): remove_control operates on the low byte of the
character code (codes at or above 256 are truncated first). A byte below 32
maps to byte + 96 when the byte is in [1, 26] (the +64 rule followed by
lower-casing) and to byte + 64 otherwise; a byte in [32, 255] is unchanged;
code 1 maps to the code of the letter a and code 27 to 91 per the +64 rule;
receive_char stores the remapped code as the code of the generated
ASCII-keystroke event. -/
theorem remove_control_remaps (c clow chigh : ℕ) (kp : KeyboardProcessor)
    (fr : LispObject) (hlow : clow < 32) (hh1 : 32 ≤ chigh) (hh2 : chigh < 256)
    (hsup : kp.suppress_chars = false) :
    KeyboardProcessor.remove_control c = KeyboardProcessor.remove_control (c % 256) ∧
    KeyboardProcessor.remove_control clow =
      (if 1 ≤ clow ∧ clow ≤ 26 then clow + 96 else clow + 64) ∧
    KeyboardProcessor.remove_control chigh = chigh ∧
    KeyboardProcessor.remove_control 1 = 97 ∧
    KeyboardProcessor.remove_control 27 = 91 ∧
    kp.receive_char c fr =
      some
        { kind := EventKind.ASCII_KEYSTROKE_EVENT
          part := ScrollBarPart.scroll_bar_nowhere
          code := KeyboardProcessor.remove_control c
          modifiers := KeyboardProcessor.to_emacs_modifiers kp.modifiers
          x := 0
          y := 0
          timestamp := 0
          frame_or_window := fr
          arg := Qnil } := by
  refine ⟨?_, ?_, ?_, by decide, by decide, ?_⟩
  · have hmm : c % 256 % 256 = c % 256 := Nat.mod_mod_of_dvd c dvd_rfl
    simp only [KeyboardProcessor.remove_control, hmm]
  · simp only [KeyboardProcessor.remove_control, Nat.mod_eq_of_lt (by omega : clow < 256)]
    split_ifs <;> omega
  · simp only [KeyboardProcessor.remove_control, Nat.mod_eq_of_lt hh2]
    split_ifs <;> omega
  · simp [KeyboardProcessor.receive_char, hsup]

/-- Witness for claim C7 (amended) at code 300 (truncates to 44), low
byte 1, high byte 40, the fresh keyboard state. -/
theorem remove_control_remaps_witness :
    KeyboardProcessor.remove_control 300 = KeyboardProcessor.remove_control (300 % 256) ∧
    KeyboardProcessor.remove_control 1 =
      (if 1 ≤ 1 ∧ 1 ≤ 26 then 1 + 96 else 1 + 64) ∧
    KeyboardProcessor.remove_control 40 = 40 ∧
    KeyboardProcessor.remove_control 1 = 97 ∧
    KeyboardProcessor.remove_control 27 = 91 ∧
    KeyboardProcessor.new.receive_char 300 7 =
      some
        { kind := EventKind.ASCII_KEYSTROKE_EVENT
          part := ScrollBarPart.scroll_bar_nowhere
          code := KeyboardProcessor.remove_control 300
          modifiers := KeyboardProcessor.to_emacs_modifiers KeyboardProcessor.new.modifiers
          x := 0
          y := 0
          timestamp := 0
          frame_or_window := 7
          arg := Qnil } :=
  remove_control_remaps 300 1 40 KeyboardProcessor.new 7 (by decide) (by decide)
    (by decide) (by decide)

/-- Claim C8: pressing a key with a mapped name sets suppress_chars; from
then on, for any sequence of calls not containing key_released, every
receive_char returns none; key_released clears the flag, after which
receive_char produces an event again. -/
theorem key_pressed_suppresses (kp : KeyboardProcessor) (kc : VirtualKeyCode)
    (fr fr2 fr3 : LispObject) (ops : List KeyOp) (c c2 : ℕ)
    (hname : winit_keycode_emacs_key_name kc ≠ none)
    (hops : KeyOp.release ∉ ops) :
    ((kp.key_pressed kc fr).2).suppress_chars = true ∧
    (ops.foldl stepKey (kp.key_pressed kc fr).2).receive_char c fr2 = none ∧
    ((ops.foldl stepKey (kp.key_pressed kc fr).2).key_released).suppress_chars = false ∧
    (((ops.foldl stepKey (kp.key_pressed kc fr).2).key_released).receive_char c2 fr3).isSome
      = true := by
  have h1 : ((kp.key_pressed kc fr).2).suppress_chars = true := by
    simp only [KeyboardProcessor.key_pressed, if_neg hname]
  have h2 := suppress_preserved ops (kp.key_pressed kc fr).2 hops h1
  refine ⟨h1, ?_, rfl, ?_⟩
  · simp [KeyboardProcessor.receive_char, h2]
  · simp [KeyboardProcessor.receive_char, KeyboardProcessor.key_released]

/-- Witness for claim C8: Escape pressed on the fresh state, followed by a
character arrival and an unmapped key press, then release. -/
theorem key_pressed_suppresses_witness :
    ((KeyboardProcessor.new.key_pressed VirtualKeyCode.Escape 3).2).suppress_chars = true ∧
    (([KeyOp.char 120 3, KeyOp.press (VirtualKeyCode.Other 9) 3].foldl stepKey
        (KeyboardProcessor.new.key_pressed VirtualKeyCode.Escape 3).2).receive_char 120 3
      = none) ∧
    (([KeyOp.char 120 3, KeyOp.press (VirtualKeyCode.Other 9) 3].foldl stepKey
        (KeyboardProcessor.new.key_pressed VirtualKeyCode.Escape 3).2).key_released
      ).suppress_chars = false ∧
    ((([KeyOp.char 120 3, KeyOp.press (VirtualKeyCode.Other 9) 3].foldl stepKey
        (KeyboardProcessor.new.key_pressed VirtualKeyCode.Escape 3).2).key_released
      ).receive_char 121 3).isSome = true :=
  key_pressed_suppresses KeyboardProcessor.new VirtualKeyCode.Escape 3 3 3
    [KeyOp.char 120 3, KeyOp.press (VirtualKeyCode.Other 9) 3] 120 121
    (by decide) (by decide)

/-- Claim C10: key_pressed with an unmapped key code returns none and
leaves the state entirely unchanged; in particular a subsequent
receive_char still produces its character event when suppression was off. -/
theorem key_pressed_unmapped_noop (kp : KeyboardProcessor) (kc : VirtualKeyCode)
    (fr fr2 : LispObject) (c : ℕ)
    (hname : winit_keycode_emacs_key_name kc = none)
    (hsup : kp.suppress_chars = false) :
    kp.key_pressed kc fr = (none, kp) ∧
    ((kp.key_pressed kc fr).2).receive_char c fr2 = kp.receive_char c fr2 ∧
    (((kp.key_pressed kc fr).2).receive_char c fr2).isSome = true := by
  have h1 : kp.key_pressed kc fr = (none, kp) := by
    simp only [KeyboardProcessor.key_pressed, if_pos hname]
  refine ⟨h1, by rw [h1], ?_⟩
  rw [h1]
  simp [KeyboardProcessor.receive_char, hsup]

/-- Witness for claim C10 at an unmapped key code on the fresh state. -/
theorem key_pressed_unmapped_noop_witness :
    KeyboardProcessor.new.key_pressed (VirtualKeyCode.Other 42) 5 =
      (none, KeyboardProcessor.new) ∧
    ((KeyboardProcessor.new.key_pressed (VirtualKeyCode.Other 42) 5).2).receive_char 97 5 =
      KeyboardProcessor.new.receive_char 97 5 ∧
    (((KeyboardProcessor.new.key_pressed (VirtualKeyCode.Other 42) 5).2).receive_char 97 5
      ).isSome = true :=
  key_pressed_unmapped_noop KeyboardProcessor.new (VirtualKeyCode.Other 42) 5 5 97
    (by decide) (by decide)

/-! ## output.rs

The Output state is embedded with its rendering-relevant fields: the
optional in-progress display-list builder and transaction, and the list of
transactions submitted through render_api.send_transaction. The GPU-side
calls of flush (flush_scene_builder, renderer.update, renderer.render,
swap_buffers) have no observable effect on this state and are not
modelled. -/

/-- webrender DisplayListBuilder, as used here: created for a pipeline with
the current logical window size; draw closures push items into it. -/
structure DisplayListBuilder where
  pipeline_id : ℕ × ℕ
  layout_size : ℕ × ℕ
  items : List ℕ
  deriving DecidableEq

def DisplayListBuilder.new (pipeline_id : ℕ × ℕ) (layout_size : ℕ × ℕ) :
    DisplayListBuilder :=
  ⟨pipeline_id, layout_size, []⟩

/-- The transaction operations issued by the embedded code. -/
inductive TxnOp where
  | set_root_pipeline (p : ℕ × ℕ)
  | set_display_list (epoch : ℕ) (dl : DisplayListBuilder)
  | generate_frame
  deriving DecidableEq

/-- webrender Transaction: the list of operations recorded on it. -/
structure Transaction where
  ops : List TxnOp
  deriving DecidableEq

def Transaction.new : Transaction := ⟨[]⟩

/-- output.rs Output: the per-window state this code owns. Window, renderer,
events loop and render-api handles are external; the render api is observed
through the list of submitted (document, transaction) pairs. -/
structure Output where
  document_id : ℕ
  window_size : ℕ × ℕ
  display_list_builder : Option DisplayListBuilder
  current_txn : Option Transaction
  submitted : List (ℕ × Transaction)
  deriving DecidableEq

/-- output.rs Output::new: both slots start empty; window creation submits
one transaction that sets the root pipeline. -/
def Output.new (window_size : ℕ × ℕ) : Output :=
  { document_id := 0
    window_size := window_size
    display_list_builder := none
    current_txn := none
    submitted := [(0, ⟨[TxnOp.set_root_pipeline (0, 0)]⟩)] }

/-- output.rs Output::display: lazily creates the builder/transaction pair
when no builder is open, then runs the draw closure on the open pair. -/
def Output.display (self : Output)
    (f : DisplayListBuilder → Transaction → DisplayListBuilder × Transaction) : Output :=
  let pipeline_id : ℕ × ℕ := (0, 0)
  let self1 :=
    if self.display_list_builder = none then
      { self with
        display_list_builder :=
          some (DisplayListBuilder.new pipeline_id self.window_size)
        current_txn := some Transaction.new }
    else self
  match self1.display_list_builder, self1.current_txn with
  | some builder, some txn =>
    { self1 with
      display_list_builder := some (f builder txn).1
      current_txn := some (f builder txn).2 }
  | _, _ => self1

/-- output.rs Output::flush: moves both slots out (mem::replace with None);
when both were occupied, finalizes the builder into the transaction with a
frame epoch, adds generate_frame and submits it; otherwise nothing else
happens. -/
def Output.flush (self : Output) : Output :=
  let epoch : ℕ := 0
  let builder := self.display_list_builder
  let txn := self.current_txn
  let self1 := { self with display_list_builder := none, current_txn := none }
  match builder, txn with
  | some b, some t =>
    let t2 : Transaction := ⟨t.ops ++ [TxnOp.set_display_list epoch b, TxnOp.generate_frame]⟩
    { self1 with submitted := self1.submitted ++ [(self1.document_id, t2)] }
  | _, _ => self1

/-- Output states reachable by any sequence of new, display and flush. -/
inductive Reachable : Output → Prop where
  | new : ∀ window_size, Reachable (Output.new window_size)
  | display : ∀ (o : Output) f, Reachable o → Reachable (o.display f)
  | flush : ∀ o : Output, Reachable o → Reachable o.flush

/-- In every reachable Output state, the display_list_builder and
current_txn slots are both occupied or both empty (shared invariant
lemma). -/
theorem pairedSlots_of_reachable (o : Output) (h : Reachable o) :
    (o.display_list_builder.isSome = true ∧ o.current_txn.isSome = true) ∨
    (o.display_list_builder = none ∧ o.current_txn = none) := by
  induction h with
  | new ws => exact Or.inr ⟨rfl, rfl⟩
  | display o f _ ih =>
    left
    rcases ih with ⟨hb, ht⟩ | ⟨hb, ht⟩
    · rcases Option.isSome_iff_exists.mp hb with ⟨b, hb⟩
      rcases Option.isSome_iff_exists.mp ht with ⟨t, ht⟩
      simp [Output.display, hb, ht]
    · simp [Output.display, hb, ht]
  | flush o _ _ =>
    right
    rcases hb : o.display_list_builder with _ | b <;>
      rcases ht : o.current_txn with _ | t <;>
      simp [Output.flush, hb, ht]

/-- Claim C2: in every state of an Output reachable by any sequence of new,
display and flush, the display_list_builder and current_txn fields are
either both Some or both None. -/
theorem builder_txn_paired (o : Output) (h : Reachable o) :
    (o.display_list_builder.isSome = true ∧ o.current_txn.isSome = true) ∨
    (o.display_list_builder = none ∧ o.current_txn = none) :=
  pairedSlots_of_reachable o h

/-- Witness for claim C2 at a state reached by new, display, flush. -/
theorem builder_txn_paired_witness :
    ((((Output.new (800, 600)).display fun b t => (b, t)).flush).display_list_builder.isSome
        = true ∧
      ((((Output.new (800, 600)).display fun b t => (b, t))).flush).current_txn.isSome
        = true) ∨
    (((((Output.new (800, 600)).display fun b t => (b, t))).flush).display_list_builder
        = none ∧
      ((((Output.new (800, 600)).display fun b t => (b, t))).flush).current_txn = none) :=
  builder_txn_paired _
    (Reachable.flush _ (Reachable.display _ _ (Reachable.new (800, 600))))

/-- Claim C3: flushing a reachable Output with no open builder is a no-op
(state unchanged, nothing submitted); two display calls before a flush
reuse the one open builder/transaction pair (the second feeds its closure
the pair produced by the first), so the following flush submits exactly one
transaction and empties both slots. -/
theorem flush_lifecycle (o : Output) (h : Reachable o)
    (hb : o.display_list_builder = none)
    (f g : DisplayListBuilder → Transaction → DisplayListBuilder × Transaction) :
    o.flush = o ∧
    ((o.display f).display g).display_list_builder =
      some (g (f (DisplayListBuilder.new (0, 0) o.window_size) Transaction.new).1
              (f (DisplayListBuilder.new (0, 0) o.window_size) Transaction.new).2).1 ∧
    ((o.display f).display g).current_txn =
      some (g (f (DisplayListBuilder.new (0, 0) o.window_size) Transaction.new).1
              (f (DisplayListBuilder.new (0, 0) o.window_size) Transaction.new).2).2 ∧
    (((o.display f).display g).flush).submitted.length = o.submitted.length + 1 ∧
    (((o.display f).display g).flush).display_list_builder = none ∧
    (((o.display f).display g).flush).current_txn = none := by
  have ht : o.current_txn = none := by
    rcases pairedSlots_of_reachable o h with ⟨hb2, _⟩ | ⟨_, ht⟩
    · rw [hb] at hb2; exact absurd hb2 (by decide)
    · exact ht
  refine ⟨?_, ?_, ?_, ?_, ?_, ?_⟩
  · cases o
    simp only at hb ht
    subst hb ht
    simp [Output.flush]
  all_goals simp [Output.display, Output.flush, hb, ht]

/-- A concrete draw closure: pushes one item into the open builder. -/
def drawOp1 : DisplayListBuilder → Transaction → DisplayListBuilder × Transaction :=
  fun b t => ({ b with items := b.items ++ [1] }, t)

/-- A second concrete draw closure. -/
def drawOp2 : DisplayListBuilder → Transaction → DisplayListBuilder × Transaction :=
  fun b t => ({ b with items := b.items ++ [2] }, t)

/-- Witness for claim C3 on a fresh Output with two concrete draw
closures. -/
theorem flush_lifecycle_witness :
    (Output.new (800, 600)).flush = Output.new (800, 600) ∧
    (((Output.new (800, 600)).display drawOp1).display drawOp2).display_list_builder =
      some (drawOp2
              (drawOp1 (DisplayListBuilder.new (0, 0) (Output.new (800, 600)).window_size)
                Transaction.new).1
              (drawOp1 (DisplayListBuilder.new (0, 0) (Output.new (800, 600)).window_size)
                Transaction.new).2).1 ∧
    (((Output.new (800, 600)).display drawOp1).display drawOp2).current_txn =
      some (drawOp2
              (drawOp1 (DisplayListBuilder.new (0, 0) (Output.new (800, 600)).window_size)
                Transaction.new).1
              (drawOp1 (DisplayListBuilder.new (0, 0) (Output.new (800, 600)).window_size)
                Transaction.new).2).2 ∧
    ((((Output.new (800, 600)).display drawOp1).display drawOp2).flush).submitted.length =
      (Output.new (800, 600)).submitted.length + 1 ∧
    ((((Output.new (800, 600)).display drawOp1).display drawOp2).flush).display_list_builder
      = none ∧
    ((((Output.new (800, 600)).display drawOp1).display drawOp2).flush).current_txn
      = none :=
  flush_lifecycle (Output.new (800, 600)) (Reachable.new (800, 600)) rfl drawOp1 drawOp2

/-! ## texture.rs -/

/-- webrender FramebufferIntSize: two 32-bit integers. -/
structure FramebufferIntSize where
  width : ℤ
  height : ℤ
  deriving DecidableEq

/-- webrender TexelRect: four f32 UV coordinates (u0, v0, u1, v1). -/
structure TexelRect where
  u0 : F32
  v0 : F32
  u1 : F32
  v1 : F32
  deriving DecidableEq

/-- The only external-image source this code produces. -/
inductive ExternalImageSource where
  | NativeTexture (texture_id : ℕ)
  deriving DecidableEq

structure ExternalImage where
  uv : TexelRect
  source : ExternalImageSource
  deriving DecidableEq

/-- The shared texture table: GPU texture id to (framebuffer size, vertical
flip flag). The HashMap is modelled as an association list where insert
prepends; lookup takes the first hit, preserving replacement semantics. -/
abbrev TextureTable := List (ℕ × FramebufferIntSize × Bool)

/-- texture.rs TextureResourceManager::insert. -/
def tableInsert (textures : TextureTable) (texture_id : ℕ)
    (size : FramebufferIntSize) (need_flip : Bool) : TextureTable :=
  (texture_id, size, need_flip) :: textures

/-- HashMap::get on the texture table. -/
def tableGet (textures : TextureTable) (id : ℕ) : Option (FramebufferIntSize × Bool) :=
  match textures with
  | [] => none
  | (k, v) :: rest => if k = id then some v else tableGet rest id

/-- The table produced by a sequence of insert calls starting from the
empty table of TextureResourceManager::new. -/
def buildTable (inserts : List (ℕ × FramebufferIntSize × Bool)) : TextureTable :=
  inserts.foldl (fun t e => tableInsert t e.1 e.2.1 e.2.2) []

/-- texture.rs ExternalHandler::lock: truncates the u64 external-image key
to u32, looks it up (`.unwrap()` panics on a missing entry, modelled as
none), and returns a native-texture descriptor whose UV rectangle swaps the
two vertical coordinates exactly when the stored flip flag is set. -/
def ExternalHandler.lock (textures : TextureTable) (key : ℕ) : Option ExternalImage :=
  let texture_id := key % 2 ^ 32
  match tableGet textures texture_id with
  | none => none
  | some (size, need_filp) =>
    let uv :=
      if need_filp then
        TexelRect.mk (F32.ofNat 0) (F32.ofInt size.height) (F32.ofInt size.width) (F32.ofNat 0)
      else
        TexelRect.mk (F32.ofNat 0) (F32.ofNat 0) (F32.ofInt size.width) (F32.ofInt size.height)
    some { uv := uv, source := ExternalImageSource.NativeTexture texture_id }

/-- A key absent from every insert is absent from the built table. -/
theorem tableGet_buildTable_none (inserts : List (ℕ × FramebufferIntSize × Bool)) (id : ℕ) :
    ∀ acc : TextureTable, tableGet acc id = none →
      id ∉ inserts.map (fun e => e.1) →
      tableGet (inserts.foldl (fun t e => tableInsert t e.1 e.2.1 e.2.2) acc) id = none := by
  induction inserts with
  | nil => intro acc hacc _; exact hacc
  | cons e rest ih =>
    intro acc hacc hmem
    have hne : e.1 ≠ id := by
      intro he
      exact hmem (by simp [he])
    have hmem2 : id ∉ rest.map (fun e => e.1) := by
      intro hin
      exact hmem (by simp [hin])
    simpa using ih (tableInsert acc e.1 e.2.1 e.2.2)
      (by simp [tableInsert, tableGet, hne, hacc]) hmem2

/-- Claim C4: locking a texture id never inserted panics (none); locking a
registered id yields a native-texture descriptor for that id whose UV
rectangle is vertically flipped exactly when the registered flip flag is
set. -/
theorem texture_lock_behavior (inserts : List (ℕ × FramebufferIntSize × Bool))
    (id1 id2 : ℕ) (size : FramebufferIntSize) (flip : Bool)
    (h1 : id1 < 2 ^ 32) (hmem : id1 ∉ inserts.map (fun e => e.1))
    (h2 : id2 < 2 ^ 32) (hget : tableGet (buildTable inserts) id2 = some (size, flip)) :
    ExternalHandler.lock (buildTable inserts) id1 = none ∧
    ExternalHandler.lock (buildTable inserts) id2 =
      some
        { uv :=
            if flip then
              TexelRect.mk (F32.ofNat 0) (F32.ofInt size.height) (F32.ofInt size.width)
                (F32.ofNat 0)
            else
              TexelRect.mk (F32.ofNat 0) (F32.ofNat 0) (F32.ofInt size.width)
                (F32.ofInt size.height)
          source := ExternalImageSource.NativeTexture id2 } := by
  have hm1 : id1 % 4294967296 = id1 := by omega
  have hm2 : id2 % 4294967296 = id2 := by omega
  constructor
  · have hnone : tableGet (buildTable inserts) id1 = none :=
      tableGet_buildTable_none inserts id1 [] rfl hmem
    simp [ExternalHandler.lock, hm1, hnone]
  · simp [ExternalHandler.lock, hm2, hget]

/-- Witness for claim C4: one registration (id 7, 256 x 128, flipped);
id 9 was never inserted, id 7 was. -/
theorem texture_lock_behavior_witness :
    ExternalHandler.lock (buildTable [(7, FramebufferIntSize.mk 256 128, true)]) 9 = none ∧
    ExternalHandler.lock (buildTable [(7, FramebufferIntSize.mk 256 128, true)]) 7 =
      some
        { uv :=
            if true then
              TexelRect.mk (F32.ofNat 0) (F32.ofInt (FramebufferIntSize.mk 256 128).height)
                (F32.ofInt (FramebufferIntSize.mk 256 128).width) (F32.ofNat 0)
            else
              TexelRect.mk (F32.ofNat 0) (F32.ofNat 0)
                (F32.ofInt (FramebufferIntSize.mk 256 128).width)
                (F32.ofInt (FramebufferIntSize.mk 256 128).height)
          source := ExternalImageSource.NativeTexture 7 } :=
  texture_lock_behavior [(7, FramebufferIntSize.mk 256 128, true)] 9 7
    (FramebufferIntSize.mk 256 128) true (by decide) (by decide) (by decide) (by decide)

/-! ## color.rs: lookup_color_by_name_or_hex

The input &str is embedded as a Lean String; the hex branch works on its
UTF-8 bytes, exactly as the Rust byte slicing does. Rust slicing panics at
an index that is not a character boundary; such an index occurs at
positions 1, 3, 5 or 7 only when a multi-byte character overlaps a window,
in which case the window also contains continuation bytes (values at or
above 128), which are not hex digits, so the parse fails as well: either
way the overall result is the panic value none. -/

/-- Value of an ASCII hexadecimal digit byte (0-9, a-f, A-F). -/
def hexDigitVal (b : ℕ) : Option ℕ :=
  if 48 ≤ b ∧ b ≤ 57 then some (b - 48)
  else if 97 ≤ b ∧ b ≤ 102 then some (b - 87)
  else if 65 ≤ b ∧ b ≤ 70 then some (b - 55)
  else none

/-- Digit accumulation of u8::from_str_radix with radix 16: every byte must
be a hex digit and the accumulated value must stay within u8. -/
def hexAccum : List ℕ → ℕ → Option ℕ
  | [], acc => some acc
  | b :: rest, acc =>
    match hexDigitVal b with
    | none => none
    | some d => if acc * 16 + d ≤ 255 then hexAccum rest (acc * 16 + d) else none

/-- Digit accumulation after a minus sign for an unsigned target: each step
computes 0 - d with an underflow check, so every digit must be 0. -/
def hexAccumNeg : List ℕ → Option ℕ
  | [] => some 0
  | b :: rest =>
    match hexDigitVal b with
    | none => none
    | some d => if d = 0 then hexAccumNeg rest else none

/-- Rust u8::from_str_radix(w, 16) on the bytes of a window: an optional
leading sign byte (43 is the plus sign, 45 the minus sign) followed by at
least one hex digit. -/
def fromStrRadix16U8 (w : List ℕ) : Option ℕ :=
  match w with
  | [] => none
  | b :: rest =>
    if b = 43 then (if rest = [] then none else hexAccum rest 0)
    else if b = 45 then (if rest = [] then none else hexAccumNeg rest)
    else hexAccum w 0

/-- UTF-8 encoding of one character. -/
def utf8EncodeChar (c : Char) : List ℕ :=
  let n := c.toNat
  if n < 128 then [n]
  else if n < 2048 then [192 + n / 64, 128 + n % 64]
  else if n < 65536 then [224 + n / 4096, 128 + n / 64 % 64, 128 + n % 64]
  else [240 + n / 262144, 128 + n / 4096 % 64, 128 + n / 64 % 64, 128 + n % 64]

/-- The UTF-8 byte sequence of a string. -/
def utf8Bytes (s : List Char) : List ℕ := (s.map utf8EncodeChar).flatten

/-- The byte window bs[i..i+2] of Rust slicing; none models the panic on a
range reaching past the end. -/
def sliceWindow (bs : List ℕ) (i : ℕ) : Option (List ℕ) :=
  if i + 2 ≤ bs.length then some ((bs.drop i).take 2) else none

/-- Rust starts_with('#'): the pattern is a single ASCII character, so this
is first-character equality. -/
def startsWithHash (s : String) : Bool :=
  match s.data with
  | [] => false
  | c :: _ => c = '#'

/-- Rust str::to_lowercase, for the ASCII range: letters A-Z get 32 added,
every other ASCII character is unchanged. Unicode lowercase mappings of
non-ASCII characters are not modelled (the color table keys are ASCII
names). -/
def charToLower (c : Char) : Char :=
  if 65 ≤ c.toNat ∧ c.toNat ≤ 90 then Char.ofNat (c.toNat + 32) else c

def toLowercase (s : String) : String := String.mk (s.data.map charToLower)

/-- color.rs lookup_color_by_name_or_hex, parametrized by the name table
COLOR_MAP (its contents are generated into OUT_DIR at build time and are
not under src/). A string starting with the hash sign is parsed as three
2-byte base-16 windows at byte positions 1, 3 and 5, any parse failure
being the panic value none; any other string is looked up lower-cased. -/
def lookup_color_by_name_or_hex (color_map : String → Option (ℕ × ℕ × ℕ))
    (color_string : String) : Option (ℕ × ℕ × ℕ) :=
  if startsWithHash color_string then
    let bs := utf8Bytes color_string.data
    match Option.bind (sliceWindow bs 1) fromStrRadix16U8,
        Option.bind (sliceWindow bs 3) fromStrRadix16U8,
        Option.bind (sliceWindow bs 5) fromStrRadix16U8 with
    | some red, some green, some blue => some (red, green, blue)
    | _, _, _ => none
  else
    color_map (toLowercase color_string)

/-- Claim C5: the hex string of six F digits resolves to (255, 255, 255)
and the hex string of six zero digits to (0, 0, 0), whatever the name
table holds; name lookup is case-insensitive: two non-hash strings that
agree after lower-casing resolve to the same result. -/
theorem color_lookup_hex_and_case (color_map : String → Option (ℕ × ℕ × ℕ))
    (s1 s2 : String)
    (h1 : startsWithHash s1 = false) (h2 : startsWithHash s2 = false)
    (hcase : s1.data.map charToLower = s2.data.map charToLower) :
    lookup_color_by_name_or_hex color_map "#FFFFFF" = some (255, 255, 255) ∧
    lookup_color_by_name_or_hex color_map "#000000" = some (0, 0, 0) ∧
    lookup_color_by_name_or_hex color_map s1 = lookup_color_by_name_or_hex color_map s2 := by
  refine ⟨rfl, rfl, ?_⟩
  simp only [lookup_color_by_name_or_hex, h1, h2, Bool.false_eq_true, if_false, toLowercase]
  exact congrArg color_map (congrArg String.mk hcase)

/-- Witness for claim C5 with a one-entry name table and the strings Red
and red. -/
theorem color_lookup_hex_and_case_witness :
    lookup_color_by_name_or_hex
      (fun s => if s = "red" then some (255, 0, 0) else none) "#FFFFFF"
      = some (255, 255, 255) ∧
    lookup_color_by_name_or_hex
      (fun s => if s = "red" then some (255, 0, 0) else none) "#000000"
      = some (0, 0, 0) ∧
    lookup_color_by_name_or_hex
      (fun s => if s = "red" then some (255, 0, 0) else none) "Red" =
      lookup_color_by_name_or_hex
        (fun s => if s = "red" then some (255, 0, 0) else none) "red" :=
  color_lookup_hex_and_case (fun s => if s = "red" then some (255, 0, 0) else none)
    "Red" "red" (by decide) (by decide) (by decide)

/-- Counterexample to claim C6: the string with plus-one in all three
windows starts with the hash sign and has a non-hex character (the plus
sign, byte 43) at position 1, yet the lookup returns a value instead of
panicking, because u8::from_str_radix accepts a leading sign. -/
theorem hex_parse_claim_false :
    startsWithHash "#+1+1+1" = true ∧
    "#+1+1+1".data.get? 1 = some ( '+' ) ∧
    hexDigitVal 43 = none ∧
    lookup_color_by_name_or_hex (fun _ => none) "#+1+1+1" = some (1, 1, 1) := by
  refine ⟨rfl, rfl, rfl, rfl⟩

/-- Claim C6 (amended): for every input starting with the hash sign where
one of the three 2-byte windows at positions 1, 3, 5 fails u8 base-16
parsing (where parsing also accepts a leading plus or minus sign on an
otherwise in-range value, e.g. the windows plus-digit and minus-zero), the
lookup panics (none) instead of returning a value, whatever the name
table holds. Strings shorter than 7 bytes fail the out-of-range slicing
the same way. -/
theorem hex_parse_failures_panic (color_map : String → Option (ℕ × ℕ × ℕ)) (s : String)
    (hs : startsWithHash s = true)
    (hfail : Option.bind (sliceWindow (utf8Bytes s.data) 1) fromStrRadix16U8 = none ∨
      Option.bind (sliceWindow (utf8Bytes s.data) 3) fromStrRadix16U8 = none ∨
      Option.bind (sliceWindow (utf8Bytes s.data) 5) fromStrRadix16U8 = none) :
    lookup_color_by_name_or_hex color_map s = none := by
  simp only [lookup_color_by_name_or_hex, hs, if_true]
  rcases hA : Option.bind (sliceWindow (utf8Bytes s.data) 1) fromStrRadix16U8 with _ | red <;>
    rcases hB : Option.bind (sliceWindow (utf8Bytes s.data) 3) fromStrRadix16U8 with _ | green <;>
    rcases hC : Option.bind (sliceWindow (utf8Bytes s.data) 5) fromStrRadix16U8 with _ | blue <;>
    simp_all

/-- Witness for claim C6 (amended): a six-byte hex string, whose third
window runs past the end of the input. -/
theorem hex_parse_failures_panic_witness :
    lookup_color_by_name_or_hex (fun _ => none) "#12345" = none :=
  hex_parse_failures_panic (fun _ => none) "#12345" (by decide)
    (Or.inr (Or.inr (by decide)))

/-! ## font.rs -/

/-- font_kit FamilyName: the generic families plus a literal (title)
family. -/
inductive FamilyName where
  | Serif
  | SansSerif
  | Monospace
  | Cursive
  | Fantasy
  | Title (name : String)
  deriving DecidableEq

/-- font.rs LispFontLike::get_family: the FONT_FAMILY_INDEX slot (none
models nil); the match is exact on the five capitalized names, every other
string becomes a Title family. -/
def get_family (slot : Option String) : Option FamilyName :=
  match slot with
  | none => none
  | some s =>
    if s = "Serif" then some FamilyName.Serif
    else if s = "Sans Serif" then some FamilyName.SansSerif
    else if s = "Monospace" then some FamilyName.Monospace
    else if s = "Cursive" then some FamilyName.Cursive
    else if s = "Fantasy" then some FamilyName.Fantasy
    else some (FamilyName.Title s)

/-- Counterexample to claim C9: the lowercase generic name serif is not
mapped to the generic Serif variant (the match is case-sensitive and
expects the capitalized name), it becomes a literal Title family. -/
theorem get_family_claim_false :
    get_family (some "serif") = some (FamilyName.Title "serif") ∧
    FamilyName.Title "serif" ≠ FamilyName.Serif := by
  refine ⟨rfl, by decide⟩

/-- Claim C9 (amended): get_family maps the exact capitalized names Serif,
Sans Serif, Monospace, Cursive and Fantasy to the font-matching library's
generic family variants, every other non-nil family string to a literal
(title) family of that string, and a nil slot to no family. -/
theorem get_family_mapping (s : String)
    (h1 : s ≠ "Serif") (h2 : s ≠ "Sans Serif") (h3 : s ≠ "Monospace")
    (h4 : s ≠ "Cursive") (h5 : s ≠ "Fantasy") :
    get_family none = none ∧
    get_family (some "Serif") = some FamilyName.Serif ∧
    get_family (some "Sans Serif") = some FamilyName.SansSerif ∧
    get_family (some "Monospace") = some FamilyName.Monospace ∧
    get_family (some "Cursive") = some FamilyName.Cursive ∧
    get_family (some "Fantasy") = some FamilyName.Fantasy ∧
    get_family (some s) = some (FamilyName.Title s) := by
  refine ⟨rfl, rfl, rfl, rfl, rfl, rfl, ?_⟩
  simp [get_family, h1, h2, h3, h4, h5]

/-- Witness for claim C9 (amended) at a literal family name. -/
theorem get_family_mapping_witness :
    get_family none = none ∧
    get_family (some "Serif") = some FamilyName.Serif ∧
    get_family (some "Sans Serif") = some FamilyName.SansSerif ∧
    get_family (some "Monospace") = some FamilyName.Monospace ∧
    get_family (some "Cursive") = some FamilyName.Cursive ∧
    get_family (some "Fantasy") = some FamilyName.Fantasy ∧
    get_family (some "Helvetica") = some (FamilyName.Title "Helvetica") :=
  get_family_mapping "Helvetica" (by decide) (by decide) (by decide) (by decide) (by decide)

end WrBackend
